import Mathlib

/-!
Verification of the cgroup / volume control-plane core (porto).

This file gives a shallow embedding of the code under scrutiny and proves
or refutes the frozen specification claims about it.  Pure C++ functions
become Lean functions; stateful kernel interaction (mount table,
directories, knob files, signals) becomes explicit state passing over
small world records.  Machine integers are Nat with explicit reduction
modulo 2^64 or 2^32 where the C++ code can overflow.  Fallible calls
return Option or carry an explicit error component.
-/

namespace Porto

/-- Error value type: mirrors TError, reduced to the success/error
distinction the claims need (src/file.hpp, src/util/string.cpp). -/
inductive TErr where
  | success
  | error
deriving DecidableEq, Repr

/-- Mount descriptor; translated from the TMount uses in src/cgroup.cpp
(source, mountpoint, fstype, mount flags, option flag set).  The option
flag set is modelled as a list normalized by sortDedup where the C++
code builds a std::set.  Equality is modelled from the spec: structural
across all five fields (TMount itself is declared outside src/). -/
structure TMount where
  source : String
  mountpoint : String
  fstype : String
  mountFlags : Nat
  optionFlags : List String
deriving DecidableEq, Repr

/-- Modelled from the spec: the shared tmpfs anchor path used by
TCgroup::Create; the tmpfs constant is declared outside src/ and the
spec gives /sys/fs/cgroup as the fixed path.  No claim depends on the
concrete string. -/
def tmpfs : String := "/sys/fs/cgroup"

/-- Cgroup node as built by the TCgroup constructors in src/cgroup.cpp:
a root carries its mount and its subsystem handle vector (handles are
interned by name, so a handle is represented by its name string); a
non-root carries its parent and its path segment name. -/
inductive TCgroup where
  | root (mount : TMount) (subsystems : List String)
  | child (parent : TCgroup) (name : String)
deriving DecidableEq, Repr

/-- TCgroup::Path (src/cgroup.cpp lines 97-102): a root returns its
mount's mountpoint, a child returns parent path ++ "/" ++ name. -/
def TCgroup.Path : TCgroup → String
  | .root m _ => m.mountpoint
  | .child p n => p.Path ++ "/" ++ n

/-- The mount of the root ancestor of a node. -/
def TCgroup.rootMount : TCgroup → TMount
  | .root m _ => m
  | .child p _ => p.rootMount

/-- Paths of the node and all its ancestors, root first. -/
def TCgroup.chainPaths : TCgroup → List String
  | .root m s => [(TCgroup.root m s).Path]
  | .child p n => p.chainPaths ++ [(TCgroup.child p n).Path]

/-- Kernel-side state TCgroup::Create interacts with: the live mount
table, the set of existing directories, and the set of paths at which a
directory creation attempt fails (the failure oracle). -/
structure CgWorld where
  mounts : List TMount
  dirs : List String
  failDirs : List String
deriving DecidableEq, Repr

/-- The shared tmpfs anchor mount TCgroup::Create probes and mounts:
TMount root("cgroup", tmpfs, "tmpfs", 0, {}) (src/cgroup.cpp line 108). -/
def cgRootAnchor : TMount :=
  { source := "cgroup", mountpoint := tmpfs, fstype := "tmpfs",
    mountFlags := 0, optionFlags := [] }

/-- The mkdir-if-missing step of TCgroup::Create (TFolder f(Path());
if (!f.Exists()) f.Create(mode)).  Returns the world and, when a
creation was attempted, the TError the caller of f.Create gets
(which src/cgroup.cpp discards). -/
def folderCreateStep (w : CgWorld) (p : String) : CgWorld × Option TErr :=
  if p ∈ w.dirs then (w, none)
  else if p ∈ w.failDirs then (w, some TErr.error)
  else ({w with dirs := w.dirs ++ [p]}, some TErr.success)

/-- The Option TErr of a discarded folderCreateStep result as a list of
discarded error values. -/
def discardList : Option TErr → List TErr
  | none => []
  | some e => [e]

/-- TCgroup::Create (src/cgroup.cpp lines 104-131), state passing.
Returns the new world, the list of TError values the function computed
and discarded (the result of f.Create(mode); the discarded
parent->Create() result is always success, as the returned component
shows), and the returned TError.  For a root: scan the mount table;
if the node's own mount is present return success at once; otherwise
mount the tmpfs anchor when absent.  For a child: recursively create
the parent, discarding its result.  Then mkdir-if-missing, discarding
its result, and for a root mount the subsystem mount.  The function
returns TError() - success - on every path. -/
def TCgroup.Create : TCgroup → CgWorld → CgWorld × List TErr × TErr
  | .root m s, w =>
    if m ∈ w.mounts then (w, [], TErr.success)
    else
      let mountRoot := cgRootAnchor ∉ w.mounts
      let w1 := if mountRoot then {w with mounts := w.mounts ++ [cgRootAnchor]} else w
      let step := folderCreateStep w1 (TCgroup.root m s).Path
      let w3 := {step.1 with mounts := step.1.mounts ++ [m]}
      (w3, discardList step.2, TErr.success)
  | .child p n, w =>
    let r := p.Create w
    let step := folderCreateStep r.1 (TCgroup.child p n).Path
    (step.1, r.2.1 ++ discardList step.2, TErr.success)

/-- A node is materialized in a world: its root's subsystem mount is in
the live mount table and the directory of every node on its chain
exists.  (A kernel cgroup directory can only exist under a mounted
cgroup filesystem.) -/
def Materialized (cg : TCgroup) (w : CgWorld) : Prop :=
  cg.rootMount ∈ w.mounts ∧ ∀ q ∈ cg.chainPaths, q ∈ w.dirs

instance (cg : TCgroup) (w : CgWorld) : Decidable (Materialized cg w) := by
  unfold Materialized; infer_instance

/-! Task reading, emptiness and the remove drain loop
(src/cgroup.cpp lines 79-91 and 133-159). -/

/-- Signals sent by TCgroup::Kill. -/
inductive Signal where
  | sigkill
  | sigint
deriving DecidableEq, Repr

/-- C++ std::stoi on one line of a tasks file: skip whitespace, one
optional sign, then a nonempty digit run; anything but a leading
integer throws (modelled as none).  Trailing garbage after the digits
is ignored, as stoi ignores it.  Overflow beyond int range throws. -/
def stoiLine (s : List Char) : Option Int :=
  let afterWs := s.dropWhile Char.isWhitespace
  let neg := afterWs.head? = some '-'
  let body := if afterWs.head? = some '-' ∨ afterWs.head? = some '+'
              then afterWs.tail else afterWs
  let ds := body.takeWhile Char.isDigit
  if ds.isEmpty then none
  else
    let v : Nat := ds.foldl (fun a c => a * 10 + (c.toNat - 48)) 0
    if neg then (if v ≤ 2^31 then some (-(v : Int)) else none)
    else (if v < 2^31 then some (v : Int) else none)

/-- StringsToIntegers (src/util/string.cpp lines 30-41): push each
parsed integer; on the first unparsable line return an error, keeping
the integers already pushed. -/
def stringsToIntegers : List String → List Int × TErr
  | [] => ([], TErr.success)
  | l :: ls =>
    match stoiLine l.data with
    | none => ([], TErr.error)
    | some v =>
      let r := stringsToIntegers ls
      (v :: r.1, r.2)

/-- TCgroup::GetTasks (src/cgroup.cpp lines 79-85) given the content of
the tasks knob file: none models a failed GetKnobValueAsLines (the out
vector stays empty and the error is returned); otherwise the lines are
parsed by StringsToIntegers. -/
def getTasksFile : Option (List String) → List Int × TErr
  | none => ([], TErr.error)
  | some lines => stringsToIntegers lines

/-- TCgroup::IsEmpty (src/cgroup.cpp lines 87-91): read tasks,
discard the TError, and report whether the task vector is empty. -/
def isEmptyFile (f : Option (List String)) : Bool :=
  (getTasksFile f).1.isEmpty

/-- The tasks-knob read environment of the remove drain loop: the k-th
read of the tasks file yields this content (none = read failure).  Each
loop iteration reads twice: once in IsEmpty, once inside Kill. -/
def isEmptyAt (reads : Nat → Option (List String)) (k : Nat) : Bool :=
  isEmptyFile (reads k)

/-- The signals one TCgroup::Kill(SIGINT) call from the drain loop
sends (src/cgroup.cpp lines 147-159): every pid of its own tasks read
receives the signal; the Kill result, like the TTask::Kill results
inside it, is discarded by Remove. -/
def killsAt (reads : Nat → Option (List String)) (k : Nat) : List (Int × Signal) :=
  (getTasksFile (reads k)).1.map (fun p => (p, Signal.sigint))

/-- The non-root drain loop of TCgroup::Remove
(while (!IsEmpty()) Kill(SIGINT);) with explicit fuel: reads index k is
consumed by IsEmpty, k+1 by the Kill of the same iteration.  Returns
the signal trace and the index of the final (empty) IsEmpty read, or
none when the fuel runs out before the cgroup is seen empty. -/
def drainLoop (reads : Nat → Option (List String)) : Nat → Nat → Option (List (Int × Signal) × Nat)
  | 0, k => if isEmptyAt reads k then some ([], k) else none
  | fuel + 1, k =>
    if isEmptyAt reads k then some ([], k)
    else
      match drainLoop reads fuel (k + 2) with
      | none => none
      | some (tr, kf) => some (killsAt reads (k + 1) ++ tr, kf)

/-- TCgroup::Remove for a non-root (src/cgroup.cpp lines 133-145):
drain, then TFolder(Path()).Remove() with its result discarded, then
return TError() - success.  Directory removal is modelled as dropping
the path from the directory list; removing an absent directory leaves
the world unchanged and the discarded rmdir error unobserved. -/
def removeNonRoot (reads : Nat → Option (List String)) (fuel : Nat)
    (dirs : List String) (path : String) :
    Option (List (Int × Signal) × List String × TErr) :=
  match drainLoop reads fuel 0 with
  | none => none
  | some (tr, _) => some (tr, dirs.filter (fun d => d ≠ path), TErr.success)

/-- TCgroup::Remove for a root (src/cgroup.cpp lines 133-145):
mount->Umount() with its result discarded, then directory removal with
its result discarded, then return TError() - success. -/
def removeRoot (mounts : List TMount) (dirs : List String)
    (m : TMount) (path : String) : List TMount × List String × TErr :=
  (mounts.filter (fun x => x ≠ m), dirs.filter (fun d => d ≠ path), TErr.success)

/-! The cgroup snapshot (src/cgroup.cpp lines 221-255) with the
string-set utilities it uses (src/util/string.cpp). -/

/-- Lexicographic character-code comparison; the std::string operator<
order that std::set of std::string sorts by. -/
def charListLt : List Char → List Char → Bool
  | [], [] => false
  | [], _ :: _ => true
  | _ :: _, [] => false
  | a :: as, b :: bs =>
    if a.toNat < b.toNat then true
    else if b.toNat < a.toNat then false
    else charListLt as bs

/-- String order of std::set of std::string. -/
def strLt (a b : String) : Bool := charListLt a.data b.data

/-- Insertion into a sorted duplicate-free string list; models
std::set of std::string insertion order. -/
def insertSortedU (x : String) : List String → List String
  | [] => [x]
  | y :: t => if x = y then y :: t else if strLt x y then x :: y :: t else y :: insertSortedU x t

/-- Normalization of a string list into std::set form: sorted and
duplicate free. -/
def sortDedup (l : List String) : List String := l.foldr insertSortedU []

/-- CommaSeparatedList (src/util/string.cpp lines 10-18 and 20-28):
join with comma separators, no trailing comma. -/
def commaSeparatedList : List String → String
  | [] => ""
  | [x] => x
  | x :: y :: t => x ++ "," ++ commaSeparatedList (y :: t)

/-- The supported subsystem set of TCgroupSnapshot (src/cgroup.cpp
lines 224-227) in its std::set iteration order. -/
def supportedSubsystems : List String :=
  ["blkio", "cpu", "cpuacct", "cpuset", "devices", "freezer", "hugetlb",
   "memory", "name=systemd", "net_cls", "net_prio", "perf_event"]

/-- The sorted intersection cs of a mount's option flag set with the
supported subsystem set, as set_intersection over the two ordered sets
computes it (src/cgroup.cpp lines 230-235). -/
def snapCs (m : TMount) : List String :=
  (sortDedup m.optionFlags).filter (fun f => supportedSubsystems.contains f)

/-- The subsystem handle vector the snapshot builds for a mount: one
entry per controller in cs, each the handle interned for the
comma-joined name (cg_controllers in src/cgroup.cpp lines 243-247). -/
def snapCtrl (m : TMount) : List String :=
  (snapCs m).map (fun _ => commaSeparatedList (snapCs m))

/-- Assoc-list lookup by string-list key; models the registry scan for
an already interned root cgroup with the given subsystem vector. -/
def lookupRoot : List (List String × TMount) → List String → Option TMount
  | [], _ => none
  | (s, m) :: rest, key => if s = key then some m else lookupRoot rest key

/-- TRegistry interning of a root cgroup, modelled from the spec: two
root nodes are equal iff their subsystem vectors are equal
(operator== in src/cgroup.cpp lines 178-186), and a second
construction returns the already registered handle - so the first
mount registered for a subsystem vector wins.  Returns the node and
the updated registry. -/
def getRootIn (reg : List (List String × TMount)) (m : TMount)
    (ctrl : List String) : TCgroup × List (List String × TMount) :=
  match lookupRoot reg ctrl with
  | some m0 => (TCgroup.root m0 ctrl, reg)
  | none => (TCgroup.root m ctrl, reg ++ [(ctrl, m)])

/-- std::map insert-or-assign on an assoc list (subsystems[c] = ... in
src/cgroup.cpp line 244). -/
def assocSet : List (String × String) → String → String → List (String × String)
  | [], k, v => [(k, v)]
  | (a, b) :: t, k, v => if a = k then (k, v) :: t else (a, b) :: assocSet t k v

/-- Assoc-list lookup for the snapshot's subsystems map. -/
def assocGet : List (String × String) → String → Option String
  | [], _ => none
  | (a, b) :: t, k => if a = k then some b else assocGet t k

/-- Subfolder listing of the modelled filesystem: path to the names of
its direct subdirectories. -/
def lookupFs : List (String × List String) → String → List String
  | [], _ => []
  | (p, subs) :: t, q => if p = q then subs else lookupFs t q

/-- TCgroup::FindChildren (src/cgroup.cpp lines 52-68) over the
modelled filesystem with explicit recursion fuel: for every subfolder
of the node's path, recurse into the interned child node and
concatenate the results, then append the node itself.  none when the
fuel does not cover the directory depth. -/
def findChildren (fs : List (String × List String)) : Nat → TCgroup → Option (List TCgroup)
  | 0, _ => none
  | fuel + 1, self => do
    let kids ← (lookupFs fs self.Path).mapM
      (fun s => findChildren fs fuel (TCgroup.child self s))
    pure (kids.flatten ++ [self])

/-- The TCgroupSnapshot state: the interned root registry, the
subsystems map (controller name to interned handle name), and the flat
cgroups list. -/
structure SnapState where
  registry : List (List String × TMount)
  subsystems : List (String × String)
  cgroups : List TCgroup
deriving DecidableEq, Repr

/-- One iteration of the TCgroupSnapshot constructor loop
(src/cgroup.cpp lines 229-254) for one mount of the mount table: skip
the mount when cs is empty; otherwise intern one subsystem handle per
controller under the comma-joined name, get (or register) the root
cgroup for the controller vector, and append the root followed by its
FindChildren subtree to the cgroups list. -/
def snapStep (fs : List (String × List String)) (fuel : Nat)
    (st : SnapState) (m : TMount) : Option SnapState :=
  let cs := snapCs m
  if cs.isEmpty then some st
  else
    let name := commaSeparatedList cs
    let subsystems1 := cs.foldl (fun mp c => assocSet mp c name) st.subsystems
    let rt := getRootIn st.registry m (snapCtrl m)
    match findChildren fs fuel rt.1 with
    | none => none
    | some kids =>
      some { registry := rt.2, subsystems := subsystems1,
             cgroups := st.cgroups ++ rt.1 :: kids }

/-- TCgroupSnapshot::TCgroupSnapshot (src/cgroup.cpp lines 221-255):
fold the per-mount step over the live mount table. -/
def cgroupSnapshot (fs : List (String × List String)) (fuel : Nat)
    (mounts : List TMount) : Option SnapState :=
  mounts.foldlM (snapStep fs fuel) { registry := [], subsystems := [], cgroups := [] }

/-! StringWithUnitToUint64 (src/util/string.cpp lines 83-107). -/

/-- Result of C++ std::stoull(str, &pos): the parsed value and the
index one past the last digit, or the invalid-argument exception (no
digits) or the out-of-range exception (magnitude above 2^64 - 1). -/
inductive StoullResult where
  | ok (v : Nat) (pos : Nat)
  | invalid
  | outOfRange
deriving DecidableEq, Repr

/-- One optional leading sign: returns (negative, remainder). -/
def stripSign : List Char → Bool × List Char
  | [] => (false, [])
  | c :: t => if c = '-' then (true, t) else if c = '+' then (false, t) else (false, c :: t)

/-- Decimal value of a digit-character run, most significant first. -/
def digitsFold (acc : Nat) (ds : List Char) : Nat :=
  ds.foldl (fun a c => a * 10 + (c.toNat - 48)) acc

/-- std::stoull(str, &pos), base 10: skip whitespace, one optional
sign, then a nonempty digit run; pos counts every consumed character.
A negative input wraps to 2^64 - v as the C++ function does. -/
def stoullPos (s : List Char) : StoullResult :=
  let afterWs := s.dropWhile Char.isWhitespace
  let sg := stripSign afterWs
  let ds := sg.2.takeWhile Char.isDigit
  if ds.isEmpty then StoullResult.invalid
  else
    let v := digitsFold 0 ds
    if 2^64 ≤ v then StoullResult.outOfRange
    else
      let value := if sg.1 then (2^64 - v) % 2^64 else v
      StoullResult.ok value (s.length - sg.2.length + ds.length)

/-- The suffix switch of StringWithUnitToUint64.  The C++ switch falls
through: G shifts left by 10 three times, M twice, K once, each on a
uint64; three wrapping 10-bit shifts equal one wrapping 30-bit shift,
so each case is one shift reduced modulo 2^64. -/
def applySuffix (c : Char) (v : Nat) : Nat :=
  if c = 'G' ∨ c = 'g' then (v <<< 30) % 2^64
  else if c = 'M' ∨ c = 'm' then (v <<< 20) % 2^64
  else if c = 'K' ∨ c = 'k' then (v <<< 10) % 2^64
  else v

/-- StringWithUnitToUint64 (src/util/string.cpp lines 83-107): parse
with stoull; on either exception return the error; when a character
follows the digits, apply the unit suffix switch to it.  none models
the returned TError. -/
def stringWithUnitToUint64 (s : List Char) : Option Nat :=
  match stoullPos s with
  | StoullResult.invalid => none
  | StoullResult.outOfRange => none
  | StoullResult.ok v pos =>
    some (if 0 < pos ∧ pos < s.length then applySuffix (s.getD pos ' ') v else v)

/-- The value of a decimal digit string given by its digit list. -/
def natOfDigits (digs : List Nat) : Nat := digs.foldl (fun a d => a * 10 + d) 0

/-- The character string of a decimal digit list. -/
def charsOfDigits (digs : List Nat) : List Char :=
  digs.map (fun d => Char.ofNat (48 + d))

/-! AllocLoop (src/util/unix.cpp lines 260-306). -/

/-- The world AllocLoop interacts with, restricted to its backing-file
path: the file (its length in bytes and whether mkfs.ext4 formatted
it), and a failure oracle per step (open, ftruncate, lseek, write, the
Run of mkfs, and the mkfs exit status). -/
structure LoopWorld where
  file : Option (Nat × Bool)
  openFail : Bool
  truncFail : Bool
  seekFail : Bool
  writeFail : Bool
  runFail : Bool
  mkfsStatus : Nat
deriving DecidableEq, Repr

/-- The remove_file label of AllocLoop: TFile(path).Remove() with its
result discarded. -/
def removeFile (w : LoopWorld) : LoopWorld := {w with file := none}

/-- AllocLoop (src/util/unix.cpp lines 260-306), state passing.
open with O_CREAT|O_EXCL fails when the file already exists or the
oracle says so, and then nothing was created.  After creation each
failing step jumps to remove_file.  lseek(fd, size - 1, SEEK_SET)
fails in the kernel for size = 0 (offset -1) and for offsets outside
off_t, and its 64-bit result is stored into a C int, so a returned
offset whose low 32 bits read as negative also takes the error path.
The single write at offset size - 1 makes the file exactly size bytes
long; Run failure or a nonzero mkfs exit status again jumps to
remove_file; otherwise the file is ext4-formatted and success is
returned. -/
def allocLoop (size : Nat) (w0 : LoopWorld) : LoopWorld × TErr :=
  if w0.file.isSome ∨ w0.openFail then (w0, TErr.error)
  else
    let w1 : LoopWorld := {w0 with file := some (0, false)}
    if w1.truncFail then (removeFile w1, TErr.error)
    else if size = 0 ∨ 2^63 ≤ size ∨ w1.seekFail then (removeFile w1, TErr.error)
    else if 2^31 ≤ (size - 1) % 2^32 then (removeFile w1, TErr.error)
    else if w1.writeFail then (removeFile w1, TErr.error)
    else
      let w2 : LoopWorld := {w1 with file := some (size, false)}
      if w2.runFail then (removeFile w2, TErr.error)
      else if w2.mkfsStatus ≠ 0 then (removeFile w2, TErr.error)
      else ({w2 with file := some (size, true)}, TErr.success)

/-! TVolume construction state (src/src/volume.hpp). -/

/-- Modelled from the spec: the Porto::EVolumeState enumeration used by
src/src/volume.hpp is declared outside src/; the spec lists its ten
states. -/
inductive EVolumeState where
  | INITIAL
  | CONFIGURED
  | BUILDING
  | READY
  | TUNING
  | UNLINKED
  | TO_DESTROY
  | DESTROYING
  | DESTROYED
  | UNREADY
deriving DecidableEq, Repr

/-- The default-initialized members of TVolume (src/src/volume.hpp):
every in-class member initializer, State = EVolumeState::UNREADY among
them.  The TVolume() constructor body only bumps a statistics counter
and assigns no member. -/
structure TVolume where
  State : EVolumeState := EVolumeState.UNREADY
  IsAutoPath : Bool := false
  BuildTime : Nat := 0
  ChangeTime : Nat := 0
  KeepStorage : Bool := false
  NeedCow : Bool := false
  DeviceIndex : Int := -1
  IsReadOnly : Bool := false
  HasDependentContainer : Bool := false
  ClaimedSpace : Nat := 0
  SpaceLimit : Nat := 0
  SpaceGuarantee : Nat := 0
  InodeLimit : Nat := 0
  InodeGuarantee : Nat := 0
  VolumePermissions : Nat := 0o775
deriving DecidableEq, Repr

/-- A freshly constructed TVolume: all members keep their in-class
initializers. -/
def TVolume.construct : TVolume := {}

/-- TVolume::SetState assigns the State member (declaration in
src/src/volume.hpp; an explicit transition, as opposed to the
construction default). -/
def TVolume.setStateTo (v : TVolume) (s : EVolumeState) : TVolume :=
  {v with State := s}

/-! Concrete sample values used to instantiate the theorems below. -/

/-- A freezer cgroup mount. -/
def sMnt : TMount :=
  { source := "cgroup", mountpoint := "/sys/fs/cgroup/freezer",
    fstype := "cgroup", mountFlags := 0, optionFlags := ["freezer"] }

/-- The root node of the freezer hierarchy. -/
def sRoot : TCgroup := TCgroup.root sMnt ["freezer"]

/-- The child node "a" under the freezer root. -/
def sChild : TCgroup := TCgroup.child sRoot "a"

/-- A world where the freezer hierarchy and the child directory are
fully materialized. -/
def sWorldMat : CgWorld :=
  { mounts := [sMnt], dirs := [sRoot.Path, sChild.Path], failDirs := [] }

/-- A world where the freezer hierarchy is mounted but the child
directory is missing and its creation fails. -/
def sWorldFail : CgWorld :=
  { mounts := [sMnt], dirs := [sRoot.Path], failDirs := [sChild.Path] }

/-- A tasks-read environment: the first iteration sees one task with
pid 5, the next read is empty. -/
def sReads : Nat → Option (List String) := fun k => if k ≤ 1 then some ["5"] else some []

/-- A tasks-read environment where every read of the tasks knob
fails. -/
def sReadsNone : Nat → Option (List String) := fun _ => none

/-- A memory-controller cgroup mount (with a non-subsystem rw flag). -/
def sMemMount : TMount :=
  { source := "cgroup", mountpoint := "/sys/fs/cgroup/memory",
    fstype := "cgroup", mountFlags := 0, optionFlags := ["rw", "memory"] }

/-- A second mount carrying the same subsystem set as sMemMount at a
different mountpoint. -/
def sMemMountB : TMount :=
  { source := "cgroup", mountpoint := "/mnt/memory2",
    fstype := "cgroup", mountFlags := 0, optionFlags := ["memory"] }

/-- A mount co-mounting the cpu and cpuacct controllers. -/
def sCpuMount : TMount :=
  { source := "cgroup", mountpoint := "/sys/fs/cgroup/cpu,cpuacct",
    fstype := "cgroup", mountFlags := 0, optionFlags := ["cpu", "cpuacct"] }

/-- A snapshot state in which the memory root is already interned for
sMemMount. -/
def sSnapSt : SnapState :=
  { registry := [(snapCtrl sMemMount, sMemMount)],
    subsystems := [("memory", "memory")],
    cgroups := [TCgroup.root sMemMount (snapCtrl sMemMount),
                TCgroup.root sMemMount (snapCtrl sMemMount)] }

/-- A loop-backing-store world where every step succeeds. -/
def sLoopWorld : LoopWorld :=
  { file := none, openFail := false, truncFail := false, seekFail := false,
    writeFail := false, runFail := false, mkfsStatus := 0 }

/-! Theorems settling the claims. -/

/-- C5: path() of every cgroup node satisfies the claim exactly: a
root node's path equals its mount's mountpoint, and a non-root node's
path equals parent.Path() ++ "/" ++ name. -/
theorem c5_path_composition :
    (∀ (m : TMount) (s : List String), (TCgroup.root m s).Path = m.mountpoint)
    ∧ (∀ (p : TCgroup) (n : String), (TCgroup.child p n).Path = p.Path ++ "/" ++ n) :=
  ⟨fun _ _ => rfl, fun _ _ => rfl⟩

/-- C10: every freshly constructed TVolume has State UNREADY - the
in-class member initializer of src/src/volume.hpp, not a state
reachable only through SetState - so a volume observed before its
first explicit SetState is UNREADY, not INITIAL. -/
theorem c10_fresh_volume_unready :
    TVolume.construct.State = EVolumeState.UNREADY
    ∧ (∀ (v : TVolume) (s : EVolumeState), (v.setStateTo s).State = s)
    ∧ EVolumeState.UNREADY ≠ EVolumeState.INITIAL :=
  ⟨rfl, fun _ _ => rfl, by decide⟩

/-- C6: Create() is idempotent: on a root whose subsystem-set mount is
already in the live mount table (by structural TMount equality) it
returns success leaving the world unchanged - no mount, no mkdir; and
on any already-materialized cgroup it is a no-op returning success. -/
theorem c6_create_idempotent :
    (∀ (m : TMount) (s : List String) (w : CgWorld),
       m ∈ w.mounts → (TCgroup.root m s).Create w = (w, [], TErr.success))
    ∧ (∀ (cg : TCgroup) (w : CgWorld),
       Materialized cg w → cg.Create w = (w, [], TErr.success)) := by
  constructor
  · intro m s w h
    simp [TCgroup.Create, h]
  · intro cg
    induction cg with
    | root m s =>
      intro w h
      have hm : m ∈ w.mounts := h.1
      simp [TCgroup.Create, hm]
    | child p n ih =>
      intro w h
      obtain ⟨h1, h2⟩ := h
      have hp : Materialized p w :=
        ⟨h1, fun q hq => h2 q (by simp [TCgroup.chainPaths]; exact Or.inl hq)⟩
      have hpath : (TCgroup.child p n).Path ∈ w.dirs := by
        apply h2
        simp [TCgroup.chainPaths]
      simp [TCgroup.Create, ih w hp, folderCreateStep, hpath, discardList]

/-- Witness for C6 at a concrete materialized freezer world. -/
theorem c6_create_idempotent_witness :
    (TCgroup.root sMnt ["freezer"]).Create sWorldMat = (sWorldMat, [], TErr.success)
    ∧ sChild.Create sWorldMat = (sWorldMat, [], TErr.success) :=
  ⟨c6_create_idempotent.1 sMnt ["freezer"] sWorldMat (by decide),
   c6_create_idempotent.2 sChild sWorldMat (by decide)⟩

/-- C3 amended: for a non-root, Create() first recursively creates
its parent and then creates its own directory if missing, but the
failures arising in these steps are discarded, not returned: the
parent call's result is dropped, the mkdir result is dropped, and
Create() returns success on every path. -/
theorem c3_create_discards_errors :
    (∀ (cg : TCgroup) (w : CgWorld), (cg.Create w).2.2 = TErr.success)
    ∧ (∀ (p : TCgroup) (n : String) (w : CgWorld),
        (TCgroup.child p n).Create w =
          ((folderCreateStep (p.Create w).1 (TCgroup.child p n).Path).1,
           (p.Create w).2.1 ++
             discardList (folderCreateStep (p.Create w).1 (TCgroup.child p n).Path).2,
           TErr.success)) := by
  constructor
  · intro cg w
    cases cg with
    | root m s => simp only [TCgroup.Create]; split <;> rfl
    | child p n => rfl
  · intro p n w
    rfl

/-- C3 counterexample: in a world where the mkdir of the child
directory fails, Create() computes and discards that error and still
returns success, refuting that every failure is returned to the
caller. -/
theorem c3_counterexample :
    (sChild.Create sWorldFail).2.1 = [TErr.error]
    ∧ (sChild.Create sWorldFail).2.2 = TErr.success := by decide

/-- C8: AllocLoop is atomic on failure: starting from a world without
the backing file, every error return leaves no file behind (each
post-creation failure jumps to remove_file), and a success return
leaves the file with exactly size bytes and an ext4 filesystem. -/
theorem c8_allocloop_atomic :
    ∀ (size : Nat) (w : LoopWorld), w.file = none →
      ((allocLoop size w).2 = TErr.error → (allocLoop size w).1.file = none)
      ∧ ((allocLoop size w).2 = TErr.success → (allocLoop size w).1.file = some (size, true)) := by
  intro size w h
  unfold allocLoop removeFile
  repeat' split <;> simp_all

/-- Witness for C8 at a concrete all-success world. -/
theorem c8_allocloop_atomic_witness :
    (allocLoop 4096 sLoopWorld).2 = TErr.success
    ∧ (allocLoop 4096 sLoopWorld).1.file = some (4096, true) :=
  ⟨by decide, (c8_allocloop_atomic 4096 sLoopWorld rfl).2 (by decide)⟩

/-- Helper: invariant of the drain loop of TCgroup::Remove, by
induction on the fuel: when the loop exits, every sent signal is
SIGINT, the final IsEmpty read saw an empty task list, and if the loop
body ran at all then every pid of the first Kill's tasks read was
signalled. -/
theorem drainLoop_invariant (reads : Nat → Option (List String)) :
    ∀ (fuel k : Nat) (tr : List (Int × Signal)) (kf : Nat),
      drainLoop reads fuel k = some (tr, kf) →
      (∀ e ∈ tr, e.2 = Signal.sigint)
      ∧ isEmptyAt reads kf = true
      ∧ (isEmptyAt reads k = false →
          ∀ p ∈ (getTasksFile (reads (k + 1))).1, (p, Signal.sigint) ∈ tr) := by
  intro fuel
  induction fuel with
  | zero =>
    intro k tr kf h
    simp only [drainLoop] at h
    by_cases he : isEmptyAt reads k
    · rw [if_pos he] at h
      injection h with h
      injection h with h1 h2
      subst h1; subst h2
      refine ⟨by simp, he, fun hne => absurd he (by simp [hne])⟩
    · rw [if_neg he] at h
      cases h
  | succ fuel ih =>
    intro k tr kf h
    simp only [drainLoop] at h
    by_cases he : isEmptyAt reads k
    · rw [if_pos he] at h
      injection h with h
      injection h with h1 h2
      subst h1; subst h2
      refine ⟨by simp, he, fun hne => absurd he (by simp [hne])⟩
    · rw [if_neg he] at h
      cases hrec : drainLoop reads fuel (k + 2) with
      | none => rw [hrec] at h; cases h
      | some r =>
        obtain ⟨tr', kf'⟩ := r
        rw [hrec] at h
        injection h with h
        injection h with h1 h2
        subst h1; subst h2
        obtain ⟨ia, ib, _⟩ := ih (k + 2) tr' kf' hrec
        refine ⟨?_, ib, ?_⟩
        · intro e he'
          rcases List.mem_append.mp he' with hk | ht
          · simp only [killsAt, List.mem_map] at hk
            obtain ⟨p, _, rfl⟩ := hk
            rfl
          · exact ia e ht
        · intro _ p hp
          apply List.mem_append_left
          simp only [killsAt, List.mem_map]
          exact ⟨p, hp, rfl⟩

/-- C1: for a non-root, Remove loops sending a signal from the
SIGKILL/SIGINT pair (the one the code sends is SIGINT) to every pid
listed in its tasks read until the cgroup reads as empty, then removes
the cgroup directory and returns success; for a root it unmounts and
returns success; both paths return success when the directory is
already absent (the discarded rmdir outcome never surfaces). -/
theorem c1_remove_drain :
    ∀ (reads : Nat → Option (List String)) (fuel : Nat),
      (∀ (k : Nat) (tr : List (Int × Signal)) (kf : Nat),
        drainLoop reads fuel k = some (tr, kf) →
        (∀ e ∈ tr, e.2 = Signal.sigint ∧ e.2 ∈ [Signal.sigkill, Signal.sigint])
        ∧ isEmptyAt reads kf = true
        ∧ (isEmptyAt reads k = false →
            ∀ p ∈ (getTasksFile (reads (k + 1))).1, (p, Signal.sigint) ∈ tr))
      ∧ (∀ (dirs : List String) (path : String) (tr : List (Int × Signal))
           (ds : List String) (ret : TErr),
          removeNonRoot reads fuel dirs path = some (tr, ds, ret) →
          ret = TErr.success ∧ path ∉ ds)
      ∧ (∀ (mounts : List TMount) (dirs : List String) (m : TMount) (path : String),
          (removeRoot mounts dirs m path).2.2 = TErr.success
          ∧ m ∉ (removeRoot mounts dirs m path).1
          ∧ path ∉ (removeRoot mounts dirs m path).2.1) := by
  intro reads fuel
  refine ⟨?_, ?_, ?_⟩
  · intro k tr kf h
    obtain ⟨ia, ib, ic⟩ := drainLoop_invariant reads fuel k tr kf h
    exact ⟨fun e he => ⟨ia e he, by rw [ia e he]; simp⟩, ib, ic⟩
  · intro dirs path tr ds ret h
    simp only [removeNonRoot] at h
    cases hrec : drainLoop reads fuel 0 with
    | none => rw [hrec] at h; cases h
    | some r =>
      obtain ⟨tr', kf'⟩ := r
      rw [hrec] at h
      injection h with h
      injection h with h1 h2
      injection h2 with h2 h3
      subst h2; subst h3
      refine ⟨rfl, ?_⟩
      intro hmem
      have := (List.mem_filter.mp hmem).2
      simp at this
  · intro mounts dirs m path
    refine ⟨rfl, ?_, ?_⟩
    · intro hmem
      have := (List.mem_filter.mp hmem).2
      simp at this
    · intro hmem
      have := (List.mem_filter.mp hmem).2
      simp at this

/-- Witness for C1 at a concrete read environment: one task with pid
5 is signalled, the next read is empty, and the drain exits. -/
theorem c1_remove_drain_witness :
    isEmptyAt sReads 2 = true
    ∧ ((5 : Int), Signal.sigint) ∈ [((5 : Int), Signal.sigint)]
    ∧ TErr.success = TErr.success ∧ "/c/a" ∉ ["/c"] := by
  have h := (c1_remove_drain sReads 2).1 0 [((5 : Int), Signal.sigint)] 2 (by decide)
  have h2 := (c1_remove_drain sReads 2).2.1 ["/c"] "/c/a"
    [((5 : Int), Signal.sigint)] ["/c"] TErr.success (by decide)
  exact ⟨h.2.1, h.2.2 (by decide) 5 (by decide), h2.1, h2.2⟩

/-- C9: a failed read of the tasks knob is discarded by IsEmpty, which
then reports the cgroup as empty; consequently, with the tasks file
unreadable, the non-root Remove drain loop exits at its first test
without sending any signal and Remove returns success. -/
theorem c9_isempty_swallows_errors :
    ∀ (reads : Nat → Option (List String)) (fuel : Nat)
      (dirs : List String) (path : String),
      (reads 0 = none →
        (getTasksFile (reads 0)).2 = TErr.error ∧ isEmptyAt reads 0 = true)
      ∧ ((∀ k, reads k = none) →
          drainLoop reads fuel 0 = some ([], 0)
          ∧ removeNonRoot reads fuel dirs path =
              some ([], dirs.filter (fun d => d ≠ path), TErr.success)) := by
  intro reads fuel dirs path
  constructor
  · intro h
    exact ⟨by rw [h]; rfl, by simp [isEmptyAt, isEmptyFile, getTasksFile, h]⟩
  · intro h
    have he : isEmptyAt reads 0 = true := by
      simp [isEmptyAt, isEmptyFile, getTasksFile, h 0]
    have hd : drainLoop reads fuel 0 = some ([], 0) := by
      cases fuel <;> simp [drainLoop, he]
    exact ⟨hd, by simp [removeNonRoot, hd]⟩

/-- Witness for C9 at the all-reads-fail environment. -/
theorem c9_isempty_swallows_errors_witness :
    (getTasksFile (sReadsNone 0)).2 = TErr.error
    ∧ isEmptyAt sReadsNone 0 = true
    ∧ removeNonRoot sReadsNone 3 ["/x"] "/x" = some ([], [], TErr.success) := by
  have h := c9_isempty_swallows_errors sReadsNone 3 ["/x"] "/x"
  have h1 := h.1 rfl
  have h2 := h.2 (fun _ => rfl)
  exact ⟨h1.1, h1.2, h2.2⟩

/-- C2 counterexample: with two mounts carrying the same subsystem set
(memory), the snapshot of the two-mount table has four cgroup entries
while the one-mount table gives two: the duplicate mount is not
skipped and adds entries. -/
theorem c2_counterexample :
    (cgroupSnapshot [] 1 [sMemMount, sMemMountB]).map (fun s => s.cgroups.length) = some 4
    ∧ (cgroupSnapshot [] 1 [sMemMount]).map (fun s => s.cgroups.length) = some 2
    ∧ (cgroupSnapshot [] 1 [sMemMount, sMemMountB]).map (fun s => s.cgroups)
        ≠ (cgroupSnapshot [] 1 [sMemMount]).map (fun s => s.cgroups) := by
  refine ⟨by decide, by decide, by decide⟩

/-- C2 amended: when the snapshot loop reaches a mount whose subsystem
set is already interned in the registry, the registry is unchanged -
the first encountered mount keeps owning the root node - but the mount
is not skipped: the shared root node (carrying the first mount) and
its subtree are appended to the cgroups list again. -/
theorem c2_first_mount_wins_but_entries_added :
    ∀ (fs : List (String × List String)) (fuel : Nat) (st : SnapState)
      (m m0 : TMount) (kids : List TCgroup),
      snapCs m ≠ [] →
      lookupRoot st.registry (snapCtrl m) = some m0 →
      findChildren fs fuel (TCgroup.root m0 (snapCtrl m)) = some kids →
      snapStep fs fuel st m =
        some { registry := st.registry,
               subsystems := (snapCs m).foldl
                 (fun mp c => assocSet mp c (commaSeparatedList (snapCs m))) st.subsystems,
               cgroups := st.cgroups ++ TCgroup.root m0 (snapCtrl m) :: kids }
      ∧ (st.cgroups ++ TCgroup.root m0 (snapCtrl m) :: kids).length
          = st.cgroups.length + (kids.length + 1) := by
  intro fs fuel st m m0 kids h1 h2 h3
  have he : (snapCs m).isEmpty = false := by
    cases hcs : snapCs m with
    | nil => exact absurd hcs h1
    | cons a t => rfl
  constructor
  · simp only [snapStep, he, Bool.false_eq_true, if_false, getRootIn, h2, h3]
  · simp [List.length_append]

/-- Witness for the amended C2: the second memory mount resolves to
the root interned for the first mount and appends it (and its
one-element subtree) again. -/
theorem c2_first_mount_wins_witness :
    snapStep [] 1 sSnapSt sMemMountB =
      some { registry := sSnapSt.registry,
             subsystems := (snapCs sMemMountB).foldl
               (fun mp c => assocSet mp c (commaSeparatedList (snapCs sMemMountB)))
               sSnapSt.subsystems,
             cgroups := sSnapSt.cgroups
               ++ TCgroup.root sMemMount (snapCtrl sMemMountB)
                  :: [TCgroup.root sMemMount (snapCtrl sMemMountB)] } :=
  (c2_first_mount_wins_but_entries_added [] 1 sSnapSt sMemMountB sMemMount
    [TCgroup.root sMemMount (snapCtrl sMemMountB)]
    (by decide) (by decide) (by decide)).1

/-- C4: evaluating the snapshot on a mount that co-mounts cpu and
cpuacct, the subsystems map binds key cpu to a handle interned under
the comma-joined name cpu,cpuacct, not under cpu itself: the code
passes the derived name where the spec intends the controller name c. -/
theorem c4_subsystem_name_at_failing_input :
    (cgroupSnapshot [] 1 [sCpuMount]).bind (fun st => assocGet st.subsystems "cpu")
      = some "cpu,cpuacct"
    ∧ some "cpu,cpuacct" ≠ some "cpu" := by
  refine ⟨by decide, by decide⟩

/-- Helper: a decimal digit character has the digit property, is not
whitespace, is not a sign, and its character code is 48 + d. -/
theorem digitChar_props (d : Nat) (h : d < 10) :
    (Char.ofNat (48 + d)).isDigit = true
    ∧ (Char.ofNat (48 + d)).isWhitespace = false
    ∧ Char.ofNat (48 + d) ≠ '-'
    ∧ Char.ofNat (48 + d) ≠ '+'
    ∧ (Char.ofNat (48 + d)).toNat = 48 + d := by
  interval_cases d <;> exact ⟨by decide, by decide, by decide, by decide, by decide⟩

/-- Helper: the digit fold of stoull over a digit character string
computes the decimal value of the digit list. -/
theorem digitsFold_chars :
    ∀ (digs : List Nat), (∀ d ∈ digs, d < 10) →
      ∀ acc, digitsFold acc (charsOfDigits digs) = digs.foldl (fun a d => a * 10 + d) acc := by
  intro digs
  induction digs with
  | nil => intro _ _; rfl
  | cons d dt ih =>
    intro hd acc
    have hp := digitChar_props d (hd d (by simp))
    simp only [charsOfDigits, List.map_cons, digitsFold, List.foldl_cons]
    rw [hp.2.2.2.2]
    have h48 : 48 + d - 48 = d := by omega
    rw [h48]
    exact ih (fun x hx => hd x (List.mem_cons_of_mem _ hx)) (acc * 10 + d)

/-- Helper: getD at the length of the prefix picks the appended
element. -/
theorem getD_append_singleton :
    ∀ (xs : List Char) (y : Char) (d : Char), (xs ++ [y]).getD xs.length d = y := by
  intro xs
  induction xs with
  | nil => intro _ _; rfl
  | cons a t ih =>
    intro y d
    simp only [List.cons_append, List.length_cons, List.getD_cons_succ]
    exact ih y d

/-- Helper: stoull on a nonempty all-digit string followed by a
non-digit (or nothing) parses exactly the digits: value is the decimal
value of the digits, pos is the digit count, and the out-of-range
exception fires iff the value exceeds the uint64 range. -/
theorem stoullPos_on_digits (digs : List Nat) (tail : List Char)
    (hne : digs ≠ []) (hd : ∀ d ∈ digs, d < 10)
    (ht : tail = [] ∨ ∃ u r, tail = u :: r ∧ u.isDigit = false) :
    stoullPos (charsOfDigits digs ++ tail) =
      (if 2^64 ≤ natOfDigits digs then StoullResult.outOfRange
       else StoullResult.ok (natOfDigits digs) digs.length) := by
  obtain ⟨d0, dt, rfl⟩ : ∃ d0 dt, digs = d0 :: dt := by
    cases digs with
    | nil => exact absurd rfl hne
    | cons a t => exact ⟨a, t, rfl⟩
  have hp0 := digitChar_props d0 (hd d0 (by simp))
  have hall : ∀ a ∈ charsOfDigits (d0 :: dt), a.isDigit = true := by
    intro a ha
    simp only [charsOfDigits, List.mem_map] at ha
    obtain ⟨d, hdm, rfl⟩ := ha
    exact (digitChar_props d (hd d hdm)).1
  have hchars : charsOfDigits (d0 :: dt) = Char.ofNat (48 + d0) :: charsOfDigits dt := rfl
  have hws : (charsOfDigits (d0 :: dt) ++ tail).dropWhile Char.isWhitespace
      = charsOfDigits (d0 :: dt) ++ tail := by
    rw [hchars, List.cons_append, List.dropWhile_cons_of_neg (by simp [hp0.2.1])]
  have hsign : stripSign (charsOfDigits (d0 :: dt) ++ tail)
      = (false, charsOfDigits (d0 :: dt) ++ tail) := by
    rw [hchars, List.cons_append]
    simp only [stripSign]
    rw [if_neg hp0.2.2.1, if_neg hp0.2.2.2.1]
  have htw : (charsOfDigits (d0 :: dt) ++ tail).takeWhile Char.isDigit
      = charsOfDigits (d0 :: dt) := by
    rw [List.takeWhile_append_of_pos hall]
    rcases ht with rfl | ⟨u, r, rfl, hu⟩
    · simp
    · rw [List.takeWhile_cons_of_neg (by simp [hu])]
      simp
  have hlen : (charsOfDigits (d0 :: dt)).length = (d0 :: dt).length := by
    simp [charsOfDigits]
  have hfold := digitsFold_chars (d0 :: dt) hd 0
  simp only [stoullPos, hws, hsign, htw]
  have hemp : (charsOfDigits (d0 :: dt)).isEmpty = false := by
    rw [hchars]; rfl
  rw [hemp]
  simp only [Bool.false_eq_true, if_false]
  rw [hfold]
  by_cases hle : 2^64 ≤ natOfDigits (d0 :: dt)
  · rw [if_pos hle, if_pos (by exact hle)]
  · rw [if_neg hle, if_neg (by exact hle)]
    simp only [StoullResult.ok.injEq]
    refine ⟨rfl, ?_⟩
    rw [Nat.sub_self]
    simp [hlen]

/-- Helper: StringWithUnitToUint64 on a nonempty in-range digit string
followed by one non-digit character applies the suffix switch to that
character. -/
theorem stringWithUnit_suffix (digs : List Nat) (u : Char)
    (hne : digs ≠ []) (hd : ∀ d ∈ digs, d < 10)
    (hlt : natOfDigits digs < 2^64) (hu : u.isDigit = false) :
    stringWithUnitToUint64 (charsOfDigits digs ++ [u])
      = some (applySuffix u (natOfDigits digs)) := by
  have h0 := stoullPos_on_digits digs [u] hne hd (Or.inr ⟨u, [], rfl, hu⟩)
  rw [if_neg (by omega)] at h0
  simp only [stringWithUnitToUint64, h0]
  have hcond : 0 < digs.length ∧ digs.length < (charsOfDigits digs ++ [u]).length := by
    refine ⟨List.length_pos.mpr hne, ?_⟩
    simp [charsOfDigits]
  rw [if_pos hcond]
  have hidx : digs.length = (charsOfDigits digs).length := by simp [charsOfDigits]
  rw [hidx, getD_append_singleton]

/-- C7 amended: for a decimal digit string of value n < 2^64, a K/k,
M/m or G/g suffix yields n shifted by 10, 20 or 30 bits reduced modulo
2^64 (equal to n*2^10, n*2^20, n*2^30 whenever the product is below
2^64, and wrapped otherwise); no suffix yields n unchanged; a string
stoull cannot parse yields an error. -/
theorem c7_unit_suffixes :
    (∀ digs : List Nat, digs ≠ [] → (∀ d ∈ digs, d < 10) →
       natOfDigits digs < 2^64 →
       stringWithUnitToUint64 (charsOfDigits digs) = some (natOfDigits digs)
       ∧ ∀ (u : Char) (k : Nat),
           (u, k) ∈ [('K', 10), ('k', 10), ('M', 20), ('m', 20), ('G', 30), ('g', 30)] →
           stringWithUnitToUint64 (charsOfDigits digs ++ [u]) =
             some ((natOfDigits digs <<< k) % 2^64))
    ∧ (∀ s : List Char, stoullPos s = StoullResult.invalid →
        stringWithUnitToUint64 s = none) := by
  constructor
  · intro digs hne hd hlt
    constructor
    · have h0 := stoullPos_on_digits digs [] hne hd (Or.inl rfl)
      rw [if_neg (by omega), List.append_nil] at h0
      simp only [stringWithUnitToUint64, h0]
      have hlen : (charsOfDigits digs).length = digs.length := by simp [charsOfDigits]
      rw [hlen]
      simp
    · intro u k hmem
      simp only [List.mem_cons, List.mem_singleton, Prod.mk.injEq,
        List.not_mem_nil, or_false] at hmem
      rcases hmem with ⟨rfl, rfl⟩ | ⟨rfl, rfl⟩ | ⟨rfl, rfl⟩ | ⟨rfl, rfl⟩ | ⟨rfl, rfl⟩ | ⟨rfl, rfl⟩ <;>
        rw [stringWithUnit_suffix digs _ hne hd hlt (by decide)] <;>
        · simp only [applySuffix]
          first
          | rw [if_pos (by decide)]
          | rw [if_neg (by decide), if_pos (by decide)]
          | rw [if_neg (by decide), if_neg (by decide), if_pos (by decide)]
  · intro s h
    simp [stringWithUnitToUint64, h]

/-- Witness for C7 at the digit string 5 with suffix K. -/
theorem c7_unit_suffixes_witness :
    stringWithUnitToUint64 (charsOfDigits [5] ++ ['K'])
      = some ((natOfDigits [5] <<< 10) % 2^64)
    ∧ some ((natOfDigits [5] <<< 10) % 2^64) = some 5120 :=
  ⟨((c7_unit_suffixes.1 [5] (by decide) (by decide) (by decide)).2 'K' 10 (by decide)),
   by decide⟩

/-- C7 counterexample: the decimal string for 2^60 with suffix K does
not yield 2^60 * 2^10: the uint64 shift wraps and the code returns 0. -/
theorem c7_counterexample :
    stringWithUnitToUint64 ("1152921504606846976K".data) = some 0
    ∧ (0 : Nat) ≠ 1152921504606846976 * 2^10 :=
  ⟨rfl, by decide⟩

end Porto
